import Mathlib

/-!
Verification development for the AI Data Storyteller browser application.

The application uploads a CSV file, parses it into a header row plus data
rows, sends a row-capped sample to a hosted language model for analysis,
maps model-suggested chart specifications to chart data, offers a chat
follow-up interface with rollback on failure, and plays synthesized speech
for assistant messages.

This file gives a shallow embedding of the application logic:
the per-cell value coercion and the chart data mapper
(DataAnalysisDisplay: parseValue, prepareChartData), the analysis client
(geminiService: analyzeCsvData prompt construction and truncation note),
the base64 helpers (geminiService: encode, decode), the upload state
controller (App: handleFileSelect), the chat rollback (App:
handleSendMessage failure path), the chat input gating (ChatInput:
handleSendMessage) and the audio playback state machine (App:
handlePlayAudio / stopCurrentAudio), together with theorems settling the
specification's claims against them.

Modelling conventions:
* JavaScript runtime values reaching the mapper are numbers, strings or
  undefined; they are embedded as the inductive type JSVal.  JS numbers
  are embedded as exact rationals plus distinguished NaN and infinity
  values.  Overflow of huge literals to Infinity and IEEE-754 rounding are
  not modelled: all claims below depend only on whether a numeric parse
  succeeds, never on rounded values.
* JS objects are embedded as association lists with assignment keeping
  the position of an existing key and appending new keys (JSObj).
* String trimming is modelled over character lists with the common
  JavaScript whitespace characters; exotic Unicode space separators are
  not included, and no claim exercises them.
-/

/-- The usual JavaScript whitespace characters recognised by `trim` and
by the `Number(string)` grammar (WhiteSpace and LineTerminator). -/
def isJsWhitespace (c : Char) : Bool :=
  c = ' ' ∨ c = '\t' ∨ c = '\n' ∨ c = '\r' ∨ c = '\x0B' ∨ c = '\x0C' ∨
    c = '\u00A0' ∨ c = '\uFEFF' ∨ c = '\u2028' ∨ c = '\u2029'

/-- Remove leading and trailing whitespace from a character list. -/
def trimChars (l : List Char) : List Char :=
  ((l.dropWhile isJsWhitespace).reverse.dropWhile isJsWhitespace).reverse

/-- JavaScript `String.prototype.trim`. -/
def jsTrim (s : String) : String := String.mk (trimChars s.toList)

/-- Result of the JavaScript `Number(string)` conversion: NaN, a signed
infinity, or a finite value (embedded as an exact rational). -/
inductive JSNum where
  | nan : JSNum
  | inf (neg : Bool) : JSNum
  | fin (q : ℚ) : JSNum
deriving DecidableEq, Repr

/-- A JavaScript runtime value as it appears in the chart mapper's row
objects: a number (finite, NaN or infinite), a string, or undefined. -/
inductive JSVal where
  | vNum (q : ℚ) : JSVal
  | vNaN : JSVal
  | vInf (neg : Bool) : JSVal
  | vStr (s : String) : JSVal
  | vUndef : JSVal
deriving DecidableEq, Repr

/-- Decimal digit test used by the numeric-literal grammar. -/
def isDigitChar (c : Char) : Bool := '0' ≤ c && c ≤ '9'

/-- Value of a list of decimal digits, most significant first. -/
def digitsToNat (l : List Char) : Nat :=
  l.foldl (fun a c => a * 10 + (c.toNat - 48)) 0

/-- Value of a single hexadecimal digit, if the character is one. -/
def hexDigitVal (c : Char) : Option Nat :=
  if '0' ≤ c ∧ c ≤ '9' then some (c.toNat - 48)
  else if 'a' ≤ c ∧ c ≤ 'f' then some (c.toNat - 87)
  else if 'A' ≤ c ∧ c ≤ 'F' then some (c.toNat - 55)
  else none

/-- Value of a single octal digit, if the character is one. -/
def octDigitVal (c : Char) : Option Nat :=
  if '0' ≤ c ∧ c ≤ '7' then some (c.toNat - 48) else none

/-- Value of a single binary digit, if the character is one. -/
def binDigitVal (c : Char) : Option Nat :=
  if c = '0' ∨ c = '1' then some (c.toNat - 48) else none

/-- Accumulate digits of the given radix; fails on the first character
that is not a digit of that radix. -/
def parseRadixDigits (valOf : Char → Option Nat) (radix : Nat) :
    List Char → Nat → Option Nat
  | [], acc => some acc
  | c :: rest, acc =>
      (valOf c).bind fun d => parseRadixDigits valOf radix rest (acc * radix + d)

/-- A nonempty all-digit string in the given radix, as a natural number. -/
def parseRadixNum (valOf : Char → Option Nat) (radix : Nat)
    (l : List Char) : Option Nat :=
  match l with
  | [] => none
  | _ => parseRadixDigits valOf radix l 0

/-- Exponent part of a decimal literal (the characters after `e`/`E`):
an optional sign followed by a nonempty digit string, consuming the whole
input. -/
def parseExponentPart (l : List Char) : Option ℤ :=
  let (neg, d) :=
    match l with
    | '+' :: r => (false, r)
    | '-' :: r => (true, r)
    | _ => (false, l)
  match d with
  | [] => none
  | _ =>
    if d.all isDigitChar then
      some (if neg then -(digitsToNat d : ℤ) else (digitsToNat d : ℤ))
    else none

/-- The exact rational value `(ip.fp) * 10^ex` of a decimal literal with
integer digits `ip`, fraction digits `fp` and exponent `ex`, built with a
single `mkRat` so that it evaluates by kernel reduction. -/
def decimalLiteralToRat (ip fp : List Char) (ex : ℤ) : ℚ :=
  let num : Nat := digitsToNat ip * 10 ^ fp.length + digitsToNat fp
  match ex with
  | Int.ofNat e => mkRat (num * 10 ^ e) (10 ^ fp.length)
  | Int.negSucc e => mkRat num (10 ^ fp.length * 10 ^ (e + 1))

/-- The `StrUnsignedDecimalLiteral` grammar of `Number(string)` (without
the `Infinity` production, handled by the caller): digits, an optional
fraction, and an optional exponent, consuming the whole input. -/
def parseUnsignedDecimal (l : List Char) : Option ℚ :=
  let (ip, r1) := l.span isDigitChar
  match r1 with
  | [] => match ip with
    | [] => none
    | _ => some (decimalLiteralToRat ip [] 0)
  | '.' :: r2 =>
    let (fp, r3) := r2.span isDigitChar
    match ip, fp with
    | [], [] => none
    | _, _ =>
      match r3 with
      | [] => some (decimalLiteralToRat ip fp 0)
      | e :: r4 =>
        if e = 'e' ∨ e = 'E' then
          (parseExponentPart r4).map (fun ex => decimalLiteralToRat ip fp ex)
        else none
  | e :: r4 =>
    match ip with
    | [] => none
    | _ =>
      if e = 'e' ∨ e = 'E' then
        (parseExponentPart r4).map (fun ex => decimalLiteralToRat ip [] ex)
      else none

/-- The JavaScript `Number(string)` conversion (`StringNumericLiteral`):
whitespace-trimmed empty input is `0`; unsigned hex/octal/binary literals;
otherwise an optionally signed decimal literal or `Infinity`; anything
else is NaN. -/
def jsStringToNumber (s : String) : JSNum :=
  let t := trimChars s.toList
  match t with
  | [] => JSNum.fin 0
  | _ =>
    if t.take 2 = ['0', 'x'] ∨ t.take 2 = ['0', 'X'] then
      match parseRadixNum hexDigitVal 16 (t.drop 2) with
      | some n => JSNum.fin (n : ℚ)
      | none => JSNum.nan
    else if t.take 2 = ['0', 'o'] ∨ t.take 2 = ['0', 'O'] then
      match parseRadixNum octDigitVal 8 (t.drop 2) with
      | some n => JSNum.fin (n : ℚ)
      | none => JSNum.nan
    else if t.take 2 = ['0', 'b'] ∨ t.take 2 = ['0', 'B'] then
      match parseRadixNum binDigitVal 2 (t.drop 2) with
      | some n => JSNum.fin (n : ℚ)
      | none => JSNum.nan
    else
      let (neg, u) :=
        match t with
        | '+' :: r => (false, r)
        | '-' :: r => (true, r)
        | _ => (false, t)
      if u = "Infinity".toList then JSNum.inf neg
      else
        match parseUnsignedDecimal u with
        | some q => JSNum.fin (if neg then -q else q)
        | none => JSNum.nan

/-- The chart renderer's per-cell coercion (DataAnalysisDisplay.parseValue):
`null`/`undefined`/trims-to-empty cells give NaN; otherwise `Number(value)`
is taken when it is not NaN, else the original string is kept.  The
argument is `Option String` because a row shorter than the header list
yields `undefined` cells. -/
def parseValue (value : Option String) : JSVal :=
  match value with
  | none => JSVal.vNaN
  | some s =>
    if trimChars s.toList = [] then JSVal.vNaN
    else
      match jsStringToNumber s with
      | JSNum.nan => JSVal.vStr s
      | JSNum.fin q => JSVal.vNum q
      | JSNum.inf b => JSVal.vInf b

/-- Digits of the fractional part `rem / den` in decimal, with fuel
(terminating decimals that arise from parsed literals stay well within
the fuel; JS shortest round-trip double formatting is not modelled). -/
def fracDigitsNat (rem den : Nat) : Nat → String
  | 0 => ""
  | fuel + 1 =>
    if rem = 0 then ""
    else
      let r10 := rem * 10
      toString (r10 / den) ++ fracDigitsNat (r10 % den) den fuel

/-- Decimal rendering of a nonnegative rational. -/
def qToStringNonneg (q : ℚ) : String :=
  let n := q.num.toNat
  let d := q.den
  if n % d = 0 then toString (n / d)
  else toString (n / d) ++ "." ++ fracDigitsNat (n % d) d 100

/-- JavaScript `String(number)` for finite numbers, on the exact-rational
embedding: plain decimal with sign (the exponent notation JS switches to
for magnitudes beyond 1e21 or below 1e-6 is not modelled; no claim
exercises such magnitudes). -/
def qToJSString (q : ℚ) : String :=
  if q < 0 then "-" ++ qToStringNonneg (-q) else qToStringNonneg q

/-- JavaScript `String(value)` on the values that appear in the mapper's
row objects. -/
def jsValToString : JSVal → String
  | JSVal.vNum q => qToJSString q
  | JSVal.vNaN => "NaN"
  | JSVal.vInf neg => if neg then "-Infinity" else "Infinity"
  | JSVal.vStr s => s
  | JSVal.vUndef => "undefined"

/-- The global JavaScript `isNaN(value)`: convert to a number, test for
NaN.  Strings kept by `parseValue` always convert to NaN again; empty or
whitespace strings never reach this point as strings, because
`parseValue` already turned them into NaN. -/
def jsIsNaN : JSVal → Bool
  | JSVal.vNum _ => false
  | JSVal.vNaN => true
  | JSVal.vInf _ => false
  | JSVal.vUndef => true
  | JSVal.vStr s =>
    match jsStringToNumber s with
    | JSNum.nan => true
    | _ => false

/-- A JavaScript object as an association list of string keys to values.
Assignment keeps the position of an existing key; new keys are appended.
Objects built this way never hold a key twice. -/
abbrev JSObj : Type := List (String × JSVal)

/-- Property read `obj[k]`: the value stored at `k`, or `undefined`. -/
def objGet : JSObj → String → JSVal
  | [], _ => JSVal.vUndef
  | p :: rest, k => if p.1 = k then p.2 else objGet rest k

/-- Property write `obj[k] = v`: update the existing entry in place, or
append a new one. -/
def objSet : JSObj → String → JSVal → JSObj
  | [], k, v => [(k, v)]
  | p :: rest, k, v => if p.1 = k then (k, v) :: rest else p :: objSet rest k v

/-- Parsed table of an uploaded file (types.ts CSVData): header names and
rows of cell strings. -/
structure CSVData where
  headers : List String
  rows : List (List String)
deriving DecidableEq, Repr

/-- Chart type suggested by the analysis model (types.ts ChartParameter.type). -/
inductive ChartType where
  | bar : ChartType
  | line : ChartType
  | scatter : ChartType
deriving DecidableEq, Repr

/-- A model-suggested chart specification (types.ts ChartParameter). -/
structure ChartParameter where
  type : ChartType
  title : String
  description : String
  xAxisLabel : Option String
  yAxisLabel : Option String
  columns : List String
deriving DecidableEq, Repr

/-- Structured output of one analysis call (types.ts DataAnalysisResult). -/
structure DataAnalysisResult where
  summary : String
  keyInsights : List String
  dataQualityIssues : List String
  narrativeHook : String
  chartParameters : List ChartParameter
  analysisNotes : Option (List String)
deriving DecidableEq, Repr

/-- The row object the mapper builds per data row
(DataAnalysisDisplay.prepareChartData, `rawRows`): one property per
header, holding the coerced cell; a missing cell coerces from
`undefined`. -/
def buildRowObject (headers : List String) (row : List String) : JSObj :=
  headers.enum.foldl (fun obj p => objSet obj p.2 (parseValue (row.get? p.1))) []

/-- `counts[value] = (counts[value] || 0) + 1` on the running counts
object of the single-column bar branch. -/
def bumpCount : List (String × Nat) → String → List (String × Nat)
  | [], k => [(k, 1)]
  | p :: rest, k => if p.1 = k then (p.1, p.2 + 1) :: rest else p :: bumpCount rest k

/-- The source guard `value !== 'NaN' && value !== 'undefined'` of the
bar branch: only such string keys are counted. -/
def includedKey (k : String) : Bool := k ≠ "NaN" && k ≠ "undefined"

/-- One row's contribution to the bar-branch counts object: the row value
is stringified and counted unless that string is `NaN` or `undefined`. -/
def barCountsStep (column : String) (counts : List (String × Nat)) (row : JSObj) :
    List (String × Nat) :=
  let value := jsValToString (objGet row column)
  if includedKey value then bumpCount counts value else counts

/-- The bar branch's counts object, accumulated over all rows. -/
def barCounts (rows : List JSObj) (column : String) : List (String × Nat) :=
  rows.foldl (barCountsStep column) []

/-- The canonical-array-index reading of a string key, when it is one:
all digits, no leading zero (other than `0` itself), value below
`2^32 - 1`.  JavaScript objects list such keys first, in ascending
numeric order. -/
def arrayIndexOf (s : String) : Option Nat :=
  match s.toList with
  | [] => none
  | ['0'] => some 0
  | c :: rest =>
    if isDigitChar c ∧ c ≠ '0' ∧ rest.all isDigitChar then
      let n := digitsToNat (c :: rest)
      if n < 2 ^ 32 - 1 then some n else none
    else none

/-- Numeric value used to order array-index keys (only applied to keys
whose `arrayIndexOf` is `some`). -/
def idxVal (s : String) : Nat := (arrayIndexOf s).getD 0

/-- Insertion step of the ascending sort of array-index keyed entries. -/
def insertPairByIdx (p : String × Nat) : List (String × Nat) → List (String × Nat)
  | [] => [p]
  | q :: rest => if idxVal p.1 ≤ idxVal q.1 then p :: q :: rest else q :: insertPairByIdx p rest

/-- Ascending sort (by canonical index value) of array-index keyed entries. -/
def sortPairsByIdx (l : List (String × Nat)) : List (String × Nat) :=
  l.foldr insertPairByIdx []

/-- `Object.entries` ordering on the counts object: own keys that read as
canonical array indices come first in ascending numeric order, the other
string keys follow in insertion order. -/
def jsEntriesOrder (counts : List (String × Nat)) : List (String × Nat) :=
  sortPairsByIdx (counts.filter (fun p => (arrayIndexOf p.1).isSome)) ++
    counts.filter (fun p => (arrayIndexOf p.1).isNone)

/-- The Chart Data Mapper (DataAnalysisDisplay.prepareChartData): builds
the per-row objects, then reshapes them per chart type.  A column-count
mismatch yields the empty list. -/
def prepareChartData (chartParam : ChartParameter) (data : CSVData) : List JSObj :=
  let rawRows := data.rows.map (fun row => buildRowObject data.headers row)
  match chartParam.type with
  | ChartType.bar =>
    match chartParam.columns with
    | [column] =>
      (jsEntriesOrder (barCounts rawRows column)).map
        (fun p => [("name", JSVal.vStr p.1), ("count", JSVal.vNum (p.2 : ℚ))])
    | _ => []
  | ChartType.scatter =>
    match chartParam.columns with
    | [xCol, yCol] =>
      (rawRows.filter
          (fun row => !jsIsNaN (objGet row xCol) && !jsIsNaN (objGet row yCol))).map
        (fun row => objSet (objSet [] xCol (objGet row xCol)) yCol (objGet row yCol))
    | _ => []
  | ChartType.line =>
    match chartParam.columns with
    | xCol :: y1 :: yrest =>
      rawRows.map (fun row =>
        (y1 :: yrest).foldl
          (fun obj yCol =>
            if !jsIsNaN (objGet row yCol) then objSet obj yCol (objGet row yCol) else obj)
          (objSet [] xCol (objGet row xCol)))
    | _ => []

/-- Index of the last occurrence of a header name in the indexed header
list (later duplicate headers overwrite earlier ones in the row object). -/
def lastMatch (c : String) : List (Nat × String) → Option Nat
  | [] => none
  | p :: rest =>
    match lastMatch c rest with
    | some j => some j
    | none => if p.2 = c then some p.1 else none

/-- Specification-side reading of "the value of column `c` in this row":
the coerced cell under the last header named `c`, or `undefined` when no
header is named `c`. -/
def columnValue (headers : List String) (row : List String) (c : String) : JSVal :=
  match lastMatch c headers.enum with
  | some i => parseValue (row.get? i)
  | none => JSVal.vUndef

/-- The string key a row contributes to the category grouping. -/
def coercedKey (headers : List String) (row : List String) (c : String) : String :=
  jsValToString (columnValue headers row c)

/-- Included keys of a key list in first-seen order, skipping keys already
seen. -/
def firstSeenIncluded (seen : List String) : List String → List String
  | [] => []
  | k :: rest =>
    if includedKey k ∧ k ∉ seen then k :: firstSeenIncluded (k :: seen) rest
    else firstSeenIncluded seen rest

/-- Distinct included grouping keys of a table column, in first-seen order. -/
def firstSeenKeys (d : CSVData) (c : String) : List String :=
  firstSeenIncluded [] (d.rows.map (fun row => coercedKey d.headers row c))

/-- Number of data rows whose coerced value of column `c` stringifies to
`k`. -/
def keyCount (d : CSVData) (c k : String) : Nat :=
  (d.rows.map (fun row => coercedKey d.headers row c)).count k

/-- Insertion step of the ascending key sort mirroring `Object.entries`. -/
def insertKeyByIdx (k : String) : List String → List String
  | [] => [k]
  | q :: rest => if idxVal k ≤ idxVal q then k :: q :: rest else q :: insertKeyByIdx k rest

/-- Ascending sort of array-index-like keys by their numeric value. -/
def sortKeysByIdx (l : List String) : List String := l.foldr insertKeyByIdx []

/-- Specification-side category-count mapping (the amended claim C2):
group rows by the stringified coerced value, drop the keys `NaN` and
`undefined`, emit one `name`/`count` record per distinct key with its
row count, listing array-index-like keys first in ascending numeric
order and the remaining keys in first-seen order. -/
def barChartPerSpec (d : CSVData) (c : String) : List JSObj :=
  let ks := firstSeenKeys d c
  (sortKeysByIdx (ks.filter (fun k => (arrayIndexOf k).isSome)) ++
      ks.filter (fun k => (arrayIndexOf k).isNone)).map
    (fun k => [("name", JSVal.vStr k), ("count", JSVal.vNum (keyCount d c k : ℚ))])

/-- Specification-side scatter mapping (claim C7): one record per data
row whose two selected column values both read as numbers, holding both
values; all other rows dropped. -/
def scatterPerSpec (d : CSVData) (x y : String) : List JSObj :=
  d.rows.filterMap (fun row =>
    let vx := columnValue d.headers row x
    let vy := columnValue d.headers row y
    if !jsIsNaN vx && !jsIsNaN vy then some (objSet (objSet [] x vx) y vy) else none)

/-- Specification-side multi-line mapping (claim C8): one record per data
row, always holding the x column's value, and each series column's value
exactly when that value reads as a number. -/
def linePerSpec (d : CSVData) (xCol : String) (yCols : List String) : List JSObj :=
  d.rows.map (fun row =>
    yCols.foldl
      (fun obj yCol =>
        let v := columnValue d.headers row yCol
        if !jsIsNaN v then objSet obj yCol v else obj)
      (objSet [] xCol (columnValue d.headers row xCol)))

/-- The bar-branch counts fold, viewed over the list of string keys. -/
def countsOfKeys (ks : List String) : List (String × Nat) :=
  ks.foldl (fun counts k => if includedKey k then bumpCount counts k else counts) []

/-- Splitting a character list on a separator character, as JavaScript
`String.prototype.split` with a single-character separator. -/
def splitOnChar (sep : Char) : List Char → List (List Char)
  | [] => [[]]
  | c :: rest =>
    match splitOnChar sep rest with
    | [] => [[]]
    | g :: gs => if c = sep then [] :: g :: gs else (c :: g) :: gs

/-- JavaScript `text.split(sep)` for a one-character separator. -/
def jsSplit (sep : Char) (s : String) : List String :=
  (splitOnChar sep s.toList).map String.mk

/-- The Tabular Parser (App.handleFileSelect onload body): split the file
text on newlines, drop blank lines, fail on an empty result, otherwise
the first line's comma-split trimmed fields are the headers and each
further line's comma-split trimmed fields are a row. -/
def parseCsvText (text : String) : Option CSVData :=
  let lines := (jsSplit '\n' text).filter (fun line => jsTrim line ≠ "")
  match lines with
  | [] => none
  | first :: restLines =>
    some { headers := (jsSplit ',' first).map jsTrim,
           rows := restLines.map (fun line => (jsSplit ',' line).map jsTrim) }

/-- Message sender (types.ts Message.sender). -/
inductive Sender where
  | user : Sender
  | ai : Sender
deriving DecidableEq, Repr

/-- A chat transcript entry (types.ts Message).  The two optional
booleans model the optional TS fields: absent is `none`. -/
structure Message where
  id : String
  sender : Sender
  text : String
  timestamp : String
  audioAvailable : Option Bool
  isPlaying : Option Bool
deriving DecidableEq, Repr

/-- The selected file as the upload handler sees it: name, byte size and
text content. -/
structure FileMeta where
  name : String
  size : Nat
  content : String
deriving DecidableEq, Repr

/-- The application state touched by the upload flow (App component
state).  The chat session ref is omitted: `handleFileSelect` never
touches it. -/
structure AppState where
  selectedFile : Option FileMeta
  csvData : Option CSVData
  analysisResult : Option DataAnalysisResult
  chatMessages : List Message
  errorMsg : Option String
deriving DecidableEq, Repr

/-- External collaborators the upload flow can invoke. -/
inductive AppAction where
  | parseCsvFile : AppAction
  | invokeAnalysis : AppAction
deriving DecidableEq, Repr

/-- The 20 MB upload ceiling (App.handleFileSelect). -/
def maxFileSize : Nat := 20 * 1024 * 1024

/-- The upload handler (App.handleFileSelect), with the asynchronous file
read collapsed: it first stores the selection and clears the error, the
previous analysis result and the chat transcript, then rejects oversize
files, and otherwise runs the Tabular Parser on the file text and, on a
nonempty parse, stores the table and invokes the Analysis Client.  The
returned action list records which collaborators were invoked. -/
def handleFileSelect (st : AppState) (file : FileMeta) : AppState × List AppAction :=
  let st1 := { st with selectedFile := some file, errorMsg := none,
                       analysisResult := none, chatMessages := [] }
  if file.size > maxFileSize then
    ({ st1 with errorMsg := some "File size exceeds 20MB limit.", selectedFile := none }, [])
  else
    match parseCsvText file.content with
    | none =>
      ({ st1 with errorMsg := some "CSV file is empty.", selectedFile := none },
        [AppAction.parseCsvFile])
    | some d =>
      ({ st1 with csvData := some d }, [AppAction.parseCsvFile, AppAction.invokeAnalysis])

/-- The fixed instructional text preceding the embedded CSV sample in the
analysis prompt (geminiService.analyzeCsvData). -/
def promptHead : String :=
  "You are an expert data analyst. Analyze the following CSV data and provide a structured JSON response.\n  \n  CSV Data:\n"

/-- The fixed instructional text following the embedded CSV sample in the
analysis prompt (geminiService.analyzeCsvData). -/
def promptTail : String :=
  "\n\n  \n  Please provide:\n  1. A high-level \x27summary\x27 of the dataset (around 2-3 sentences).\n  2. An array of \x27keyInsights\x27 (3-5 concise, interesting findings).\n  3. An array of \x27dataQualityIssues\x27 (e.g., missing values, inconsistencies, potential outliers; 0-3 issues).\n  4. A \x27narrativeHook\x27 (an engaging start or idea for a data story, 1-2 sentences).\n  5. An array of \x27chartParameters\x27, each specifying:\n     - \x27type\x27: \x27bar\x27, \x27line\x27, or \x27scatter\x27 (choose based on data suitability).\n     - \x27title\x27: A descriptive title for the chart.\n     - \x27description\x27: What the plot would show and why it\x27s relevant.\n     - \x27xAxisLabel\x27 (optional): Label for the x-axis.\n     - \x27yAxisLabel\x27 (optional): Label for the y-axis.\n     - \x27columns\x27: An array of column names from the CSV data to be used in the chart. For \x27bar\x27 charts with a single column, it implies a count of unique values. For \x27scatter\x27 or \x27line\x27 charts, the first column is typically X and subsequent are Y. Ensure the columns selected are appropriate for the chart type (e.g., numerical for scatter/line axes).\n  \n  Return the response in JSON format according to the following schema. Ensure all fields are present, even if empty arrays for lists.\n  \n  Schema for chartParameters:\n  interface ChartParameter \x7b\n    type: \x27bar\x27 | \x27line\x27 | \x27scatter\x27;\n    title: string;\n    description: string;\n    xAxisLabel?: string;\n    yAxisLabel?: string;\n    columns: string[];\n  \x7d\n  \n  Schema for DataAnalysisResult:\n  interface DataAnalysisResult \x7b\n    summary: string;\n    keyInsights: string[];\n    dataQualityIssues: string[];\n    narrativeHook: string;\n    chartParameters: ChartParameter[];\n    analysisNotes?: string[]; // Use this to pass truncation notes if any\n  \x7d\n  \n  Make sure your JSON is valid and complete.\n  "

/-- Row cap of the CSV sample sent for analysis
(geminiService.analyzeCsvData, `maxRowsForPrompt`). -/
def maxRowsForPrompt : Nat := 100

/-- The comma-and-newline serialized CSV sample embedded in the prompt:
the header row followed by at most the first `maxRowsForPrompt` data
rows. -/
def csvContent (d : CSVData) : String :=
  String.intercalate "\n"
    (String.intercalate "," d.headers ::
      (d.rows.take maxRowsForPrompt).map (fun row => String.intercalate "," row))

/-- The full analysis prompt (geminiService.analyzeCsvData, `prompt`). -/
def buildPrompt (d : CSVData) : String := promptHead ++ csvContent d ++ promptTail

/-- The truncation note added when the table has more rows than the
sample cap (geminiService.analyzeCsvData, `truncationNote`). -/
def truncationNoteText : String :=
  "Only the first " ++ toString maxRowsForPrompt ++
    " rows of your CSV were sent to the AI for analysis due to prompt length limitations. The full dataset was used for chart generation."

/-- The truncation note of a table, when one applies. -/
def truncationNoteFor (d : CSVData) : Option String :=
  if d.rows.length > maxRowsForPrompt then some truncationNoteText else none

/-- The pure tail of `analyzeCsvData`: given the parsed JSON response of
the model (the network call and JSON parsing are external), prepend the
truncation note to the front of the result notes list when the table was
truncated; the second component is the returned `truncationNote`. -/
def analyzeCsvData (d : CSVData) (parsed : DataAnalysisResult) :
    DataAnalysisResult × Option String :=
  match truncationNoteFor d with
  | some n =>
    ({ parsed with analysisNotes := some (n :: parsed.analysisNotes.getD []) }, some n)
  | none => (parsed, none)

/-- The optimistic append of the provisional user message
(App.handleSendMessage, before the network call). -/
def appendUserMessage (prev : List Message) (m : Message) : List Message := prev ++ [m]

/-- The failure branch of App.handleSendMessage: every message carrying
the provisional message id is filtered out of the transcript. -/
def rollbackFailedSend (msgs : List Message) (failedId : String) : List Message :=
  msgs.filter (fun msg => msg.id ≠ failedId)

/-- The transcript after a failed send: the provisional append followed
by the rollback filter. -/
def failedSendTranscript (prev : List Message) (m : Message) : List Message :=
  rollbackFailedSend (appendUserMessage prev m) m.id

/-- The chat input send handler (ChatInput.handleSendMessage): the send
callback fires exactly when the trimmed input is nonempty (truthy) and
the input is not disabled, and it receives the trimmed input; the result
is the text passed to the callback, or `none` when nothing is sent. -/
def chatInputSend (inputValue : String) (isDisabled : Bool) : Option String :=
  if jsTrim inputValue ≠ "" ∧ ¬ isDisabled then some (jsTrim inputValue) else none

/-- The base64 alphabet used by `btoa`/`atob`. -/
def base64Alphabet : List Char :=
  "ABCDEFGHIJKLMNOPQRSTUVWXYZabcdefghijklmnopqrstuvwxyz0123456789+/".toList

/-- Character for a sextet (sextets are always below 64; the default is
never reached on them). -/
def base64Char (n : Nat) : Char := base64Alphabet.getD n '?'

/-- Alphabet position of a character, if it is in the alphabet. -/
def base64Index (c : Char) : Option Nat := base64Alphabet.findIdx? (fun x => x = c)

/-- `btoa` proper: 3 bytes become 4 alphabet characters; a short final
group is padded with `=`. -/
def btoaRun : List Nat → List Char
  | [] => []
  | [a] => [base64Char (a / 4), base64Char (a % 4 * 16), '=', '=']
  | [a, b] =>
    [base64Char (a / 4), base64Char (a % 4 * 16 + b / 16), base64Char (b % 16 * 4), '=']
  | a :: b :: c :: rest =>
    base64Char (a / 4) :: base64Char (a % 4 * 16 + b / 16) ::
      base64Char (b % 16 * 4 + c / 64) :: base64Char (c % 64) :: btoaRun rest

/-- geminiService.encode: `String.fromCharCode` maps each byte to the
code unit of a binary string (the identity on byte values below 256) and
`btoa` encodes it; `btoa` throws on code units above 255, modelled as
`none`. -/
def encode (bytes : List Nat) : Option (List Char) :=
  if bytes.all (fun x => x < 256) then some (btoaRun bytes) else none

/-- Decode 4-character groups back to bytes; unpadded short final groups
are accepted as in forgiving base64; any character outside the alphabet
(including a stray `=`) is an error. -/
def atobRun : List Char → Option (List Nat)
  | [] => some []
  | [_] => none
  | [c1, c2] =>
    (base64Index c1).bind fun s1 =>
      (base64Index c2).bind fun s2 => some [s1 * 4 + s2 / 16]
  | [c1, c2, c3] =>
    (base64Index c1).bind fun s1 =>
      (base64Index c2).bind fun s2 =>
        (base64Index c3).bind fun s3 => some [s1 * 4 + s2 / 16, s2 % 16 * 16 + s3 / 4]
  | c1 :: c2 :: c3 :: c4 :: rest =>
    (base64Index c1).bind fun s1 =>
      (base64Index c2).bind fun s2 =>
        (base64Index c3).bind fun s3 =>
          (base64Index c4).bind fun s4 =>
            (atobRun rest).map fun bs =>
              (s1 * 4 + s2 / 16) :: (s2 % 16 * 16 + s3 / 4) :: (s3 % 4 * 64 + s4) :: bs

/-- Strip up to two leading `=` characters (used on reversed input). -/
def dropEqRev (l : List Char) : List Char :=
  match l with
  | e1 :: rest1 =>
    if e1 = '=' then
      match rest1 with
      | e2 :: r => if e2 = '=' then r else rest1
      | [] => []
    else l
  | [] => []

/-- Strip up to two trailing `=` padding characters. -/
def dropTrailingEq (l : List Char) : List Char := (dropEqRev l.reverse).reverse

/-- ASCII whitespace stripped by forgiving base64 decoding. -/
def isAsciiWhitespace (c : Char) : Bool :=
  c = ' ' ∨ c = '\t' ∨ c = '\n' ∨ c = '\x0C' ∨ c = '\r'

/-- geminiService.decode: `atob` (forgiving base64: strip ASCII
whitespace, strip trailing padding when the length is a multiple of 4,
decode the groups) followed by `charCodeAt` per position (the identity
back to byte values). -/
def decode (s : List Char) : Option (List Nat) :=
  let t := s.filter (fun c => !isAsciiWhitespace c)
  atobRun (if t.length % 4 = 0 then dropTrailingEq t else t)

/-- The audio playback portion of the application state (App component):
the transcript with its per-message playing flags, the playing marker
(playingMessageId), the active source ref (named by the message id it
plays), the queue of pending asynchronous `onended` callbacks, and the
in-flight speech requests. -/
structure PlaybackState where
  messages : List Message
  playingMessageId : Option String
  currentSource : Option String
  endedQueue : List String
  pendingSpeech : List String
  errorMsg : Option String
deriving DecidableEq, Repr

/-- Set one message's playing flag (the setChatMessages maps in
App.handlePlayAudio and in the onended / failure handlers). -/
def setPlayingFlag (msgs : List Message) (msgId : String) (b : Bool) : List Message :=
  msgs.map (fun msg => if msg.id = msgId then { msg with isPlaying := some b } else msg)

/-- App.stopCurrentAudio: stop and disconnect the active source, if any
(its `onended` event fires asynchronously and is queued), and clear the
playing marker.  Note that no per-message playing flag is cleared here. -/
def stopCurrentAudio (st : PlaybackState) : PlaybackState :=
  match st.currentSource with
  | some a =>
    { st with currentSource := none, endedQueue := st.endedQueue ++ [a],
              playingMessageId := none }
  | none => { st with playingMessageId := none }

/-- The synchronous prefix of App.handlePlayAudio, up to the awaited
speech request: stop current audio, set the marker and the requested
message's flag, and issue the speech request. -/
def playAudioSync (st : PlaybackState) (msgId : String) : PlaybackState :=
  let st1 := stopCurrentAudio st
  { st1 with playingMessageId := some msgId,
             messages := setPlayingFlag st1.messages msgId true,
             pendingSpeech := st1.pendingSpeech ++ [msgId] }

/-- Resumption of App.handlePlayAudio when the speech request resolves:
the decoded buffer source is connected, started, and stored as the
active source. -/
def speechSuccess (st : PlaybackState) (msgId : String) : PlaybackState :=
  { st with pendingSpeech := st.pendingSpeech.erase msgId,
            currentSource := some msgId }

/-- Resumption of App.handlePlayAudio when the speech request fails:
surface the error, clear the marker and the requested message's flag. -/
def speechFailure (st : PlaybackState) (msgId : String) : PlaybackState :=
  { st with pendingSpeech := st.pendingSpeech.erase msgId,
            errorMsg := some "Failed to play audio.",
            playingMessageId := none,
            messages := setPlayingFlag st.messages msgId false }

/-- The queued `onended` callback of the source created for `msgId`:
clear the marker, clear that message's flag, null the source ref. -/
def sourceEnded (st : PlaybackState) (msgId : String) : PlaybackState :=
  { st with endedQueue := st.endedQueue.erase msgId,
            playingMessageId := none,
            messages := setPlayingFlag st.messages msgId false,
            currentSource := none }

/-- Event steps of the playback state machine: a user playback request
for a transcript message, the speech request resolving or failing, a
queued ended event running, and the natural end of the active source
(which queues its ended event). -/
inductive PlaybackStep : PlaybackState → PlaybackState → Prop where
  | play (st : PlaybackState) (msgId : String)
      (h : msgId ∈ st.messages.map Message.id) :
      PlaybackStep st (playAudioSync st msgId)
  | speechOk (st : PlaybackState) (msgId : String) (h : msgId ∈ st.pendingSpeech) :
      PlaybackStep st (speechSuccess st msgId)
  | speechErr (st : PlaybackState) (msgId : String) (h : msgId ∈ st.pendingSpeech) :
      PlaybackStep st (speechFailure st msgId)
  | ended (st : PlaybackState) (msgId : String) (h : msgId ∈ st.endedQueue) :
      PlaybackStep st (sourceEnded st msgId)
  | finish (st : PlaybackState) (a : String) (h : st.currentSource = some a) :
      PlaybackStep st { st with endedQueue := st.endedQueue ++ [a] }

/-- Initial playback state over a transcript: nothing playing anywhere. -/
def initPlayback (msgs : List Message) : PlaybackState :=
  { messages := msgs, playingMessageId := none, currentSource := none,
    endedQueue := [], pendingSpeech := [], errorMsg := none }

/-- A state the playback machine can reach from the initial state of the
given transcript. -/
def PlaybackReachable (msgs : List Message) (st : PlaybackState) : Prop :=
  Relation.ReflTransGen PlaybackStep (initPlayback msgs) st

/-- Number of transcript messages currently marked playing. -/
def playingCount (st : PlaybackState) : Nat :=
  st.messages.countP (fun msg => msg.isPlaying = some true)

example : parseValue (some "") = JSVal.vNaN := by decide

example : parseValue (some "a") = JSVal.vStr "a" := by decide

example : parseValue (some "4") = JSVal.vNum 4 := by decide

example : parseValue (some "1.5") = JSVal.vNum (mkRat 3 2) := by decide

example : parseValue (some "1e2") = JSVal.vNum 100 := by decide

example : parseValue (some "0x10") = JSVal.vNum 16 := by decide

example : parseValue (some "-2.5e-1") = JSVal.vNum (mkRat (-1) 4) := by decide

example : parseValue (some "Infinity") = JSVal.vInf false := by decide

example : parseValue (some "12abc") = JSVal.vStr "12abc" := by decide

example : parseValue (some "NaN") = JSVal.vStr "NaN" := by decide

example : parseValue none = JSVal.vNaN := by decide

example : jsValToString (JSVal.vNum (mkRat 3 2)) = "1.5" := by decide

example : jsValToString (JSVal.vNum 4) = "4" := by decide

example : jsValToString (JSVal.vNum (-4)) = "-4" := by decide

example :
    prepareChartData
      { type := ChartType.bar, title := "t", description := "d",
        xAxisLabel := none, yAxisLabel := none, columns := ["c"] }
      { headers := ["c"], rows := [["a"], ["a"], ["b"], [""]] } =
    [[("name", JSVal.vStr "a"), ("count", JSVal.vNum 2)],
     [("name", JSVal.vStr "b"), ("count", JSVal.vNum 1)]] := by decide

example :
    prepareChartData
      { type := ChartType.bar, title := "t", description := "d",
        xAxisLabel := none, yAxisLabel := none, columns := ["c"] }
      { headers := ["c"], rows := [["b"], ["1"]] } =
    [[("name", JSVal.vStr "1"), ("count", JSVal.vNum 1)],
     [("name", JSVal.vStr "b"), ("count", JSVal.vNum 1)]] := by decide

example :
    prepareChartData
      { type := ChartType.scatter, title := "t", description := "d",
        xAxisLabel := none, yAxisLabel := none, columns := ["x", "y"] }
      { headers := ["x", "y"], rows := [["1", "2"], ["foo", "3"], ["4", "bar"]] } =
    [[("x", JSVal.vNum 1), ("y", JSVal.vNum 2)]] := by decide

example :
    prepareChartData
      { type := ChartType.line, title := "t", description := "d",
        xAxisLabel := none, yAxisLabel := none, columns := ["t", "a", "b"] }
      { headers := ["t", "a", "b"], rows := [["r1", "5", "zzz"]] } =
    [[("t", JSVal.vStr "r1"), ("a", JSVal.vNum 5)]] := by decide

theorem objGet_objSet (o : JSObj) (k c : String) (v : JSVal) :
    objGet (objSet o k v) c = if k = c then v else objGet o c := by
  induction o with
  | nil => simp [objGet, objSet]
  | cons p rest ih =>
    by_cases hp : p.1 = k
    · simp only [objSet, hp, if_pos rfl, objGet]
      by_cases hkc : k = c
      · simp [hkc]
      · simp [hkc, objGet, hp ▸ hkc]
    · simp only [objSet, if_neg hp, objGet]
      by_cases hpc : p.1 = c
      · have hkc : ¬ k = c := fun h => hp (hpc.trans h.symm)
        simp [hpc, hkc]
      · simp [hpc, ih]

theorem objGet_foldl_assign (row : List String) (c : String) :
    ∀ (ps : List (Nat × String)) (o0 : JSObj),
      objGet (ps.foldl (fun obj p => objSet obj p.2 (parseValue (row.get? p.1))) o0) c =
        match lastMatch c ps with
        | some i => parseValue (row.get? i)
        | none => objGet o0 c := by
  intro ps
  induction ps with
  | nil => intro o0; simp [lastMatch]
  | cons p rest ih =>
    intro o0
    simp only [List.foldl_cons, ih, lastMatch]
    cases lastMatch c rest with
    | some j => simp
    | none =>
      simp only [objGet_objSet]
      by_cases hpc : p.2 = c
      · simp [hpc]
      · simp [hpc]

/-- The row object lookup agrees with the specification-side column
value: the coerced cell under the last header with the requested name,
`undefined` when the header is absent. -/
theorem objGet_buildRowObject (headers row : List String) (c : String) :
    objGet (buildRowObject headers row) c = columnValue headers row c := by
  unfold buildRowObject columnValue
  rw [objGet_foldl_assign]
  cases lastMatch c headers.enum <;> simp [objGet]

theorem filterThenMap_eq_filterMap {α β : Type _} (p : α → Bool) (f : α → β) (l : List α) :
    (l.filter p).map f = l.filterMap (fun a => if p a then some (f a) else none) := by
  induction l with
  | nil => rfl
  | cons a rest ih =>
    by_cases h : p a <;> simp [List.filter_cons, h, List.filterMap_cons, ih]

/-- Claim C7: for every scatter chart spec with exactly 2 columns and
every table, the Chart Data Mapper emits one record per row containing
both column values, and only for rows where both selected values parsed
as numbers; rows where either value is non-numeric are dropped entirely. -/
theorem c7_scatter (spec : ChartParameter) (d : CSVData) (x y : String)
    (h1 : spec.type = ChartType.scatter) (h2 : spec.columns = [x, y]) :
    prepareChartData spec d = scatterPerSpec d x y := by
  unfold prepareChartData
  rw [h1, h2]
  dsimp only
  rw [filterThenMap_eq_filterMap, List.filterMap_map]
  unfold scatterPerSpec
  simp only [Function.comp_def, objGet_buildRowObject]

/-- Witness for C7 at the specification's example: columns (x, y) with
rows [(1,2),(foo,3),(4,bar)] yield exactly [{x:1, y:2}]. -/
theorem c7_scatter_witness :
    prepareChartData
      { type := ChartType.scatter, title := "t", description := "d",
        xAxisLabel := none, yAxisLabel := none, columns := ["x", "y"] }
      { headers := ["x", "y"], rows := [["1", "2"], ["foo", "3"], ["4", "bar"]] } =
    [[("x", JSVal.vNum 1), ("y", JSVal.vNum 2)]] := by
  rw [c7_scatter _ _ "x" "y" rfl rfl]
  decide

/-- Claim C8: for every line chart spec with at least 2 columns and every
table, the Chart Data Mapper emits one record per row containing the
first (x) column's value plus, for each series column, that column's
value only if it parsed as a number for that row; otherwise the series
key is omitted from that record rather than defaulted. -/
theorem c8_line (spec : ChartParameter) (d : CSVData) (xCol y1 : String)
    (yrest : List String)
    (h1 : spec.type = ChartType.line) (h2 : spec.columns = xCol :: y1 :: yrest) :
    prepareChartData spec d = linePerSpec d xCol (y1 :: yrest) := by
  unfold prepareChartData
  rw [h1, h2]
  dsimp only
  rw [List.map_map]
  unfold linePerSpec
  simp only [Function.comp_def, objGet_buildRowObject]

/-- Witness for C8 at the specification's example: columns (t, a, b) with
one row where a is numeric and b is not give a record with keys t and a
and no key b. -/
theorem c8_line_witness :
    prepareChartData
      { type := ChartType.line, title := "t", description := "d",
        xAxisLabel := none, yAxisLabel := none, columns := ["t", "a", "b"] }
      { headers := ["t", "a", "b"], rows := [["r1", "5", "zzz"]] } =
    [[("t", JSVal.vStr "r1"), ("a", JSVal.vNum 5)]] := by
  rw [c8_line _ _ "t" "a" ["b"] rfl rfl]
  decide

theorem bumpCount_not_mem (acc : List (String × Nat)) (k : String)
    (h : k ∉ acc.map Prod.fst) : bumpCount acc k = acc ++ [(k, 1)] := by
  induction acc with
  | nil => rfl
  | cons p rest ih =>
    simp only [List.map_cons, List.mem_cons, not_or] at h
    have hpk : ¬ p.1 = k := fun hh => h.1 hh.symm
    simp [bumpCount, hpk, ih h.2]

theorem bumpCount_eq_map (acc : List (String × Nat)) (k : String)
    (hmem : k ∈ acc.map Prod.fst) (hnd : (acc.map Prod.fst).Nodup) :
    bumpCount acc k = acc.map (fun p => if p.1 = k then (p.1, p.2 + 1) else p) := by
  induction acc with
  | nil => simp at hmem
  | cons p rest ih =>
    simp only [List.map_cons, List.nodup_cons] at hnd
    by_cases hpk : p.1 = k
    · have hk : k ∉ rest.map Prod.fst := hpk ▸ hnd.1
      have hrest : rest.map (fun q => if q.1 = k then (q.1, q.2 + 1) else q) = rest := by
        conv_rhs => rw [← List.map_id rest]
        apply List.map_congr_left
        intro q hq
        have hqk : ¬ q.1 = k := fun hh => hk (hh ▸ List.mem_map_of_mem Prod.fst hq)
        simp [hqk]
      simp [bumpCount, hpk, hrest]
    · have hmem' : k ∈ rest.map Prod.fst := by
        simp only [List.map_cons, List.mem_cons] at hmem
        rcases hmem with h1 | h1
        · exact absurd h1.symm hpk
        · exact h1
      simp [bumpCount, hpk, ih hmem' hnd.2]

theorem bumpCount_keys (acc : List (String × Nat)) (k : String) :
    (bumpCount acc k).map Prod.fst =
      if k ∈ acc.map Prod.fst then acc.map Prod.fst else acc.map Prod.fst ++ [k] := by
  induction acc with
  | nil => simp [bumpCount]
  | cons p rest ih =>
    by_cases hpk : p.1 = k
    · simp [bumpCount, hpk]
    · have hne : ¬ k = p.1 := fun hh => hpk hh.symm
      by_cases hm : k ∈ rest.map Prod.fst <;>
        simp [bumpCount, hpk, ih, hm, hne]

theorem mem_firstSeenIncluded :
    ∀ (ks seen : List String) (x : String), x ∈ firstSeenIncluded seen ks →
      includedKey x ∧ x ∉ seen := by
  intro ks
  induction ks with
  | nil => intro seen x hx; simp [firstSeenIncluded] at hx
  | cons k rest ih =>
    intro seen x hx
    unfold firstSeenIncluded at hx
    by_cases h : includedKey k ∧ k ∉ seen
    · rw [if_pos h] at hx
      rcases List.mem_cons.mp hx with h1 | h1
      · exact h1 ▸ ⟨h.1, h.2⟩
      · have := ih (k :: seen) x h1
        exact ⟨this.1, fun hs => this.2 (List.mem_cons_of_mem _ hs)⟩
    · rw [if_neg h] at hx
      exact ih seen x hx

theorem firstSeenIncluded_congr :
    ∀ (ks s1 s2 : List String), (∀ z, z ∈ s1 ↔ z ∈ s2) →
      firstSeenIncluded s1 ks = firstSeenIncluded s2 ks := by
  intro ks
  induction ks with
  | nil => intro s1 s2 _; rfl
  | cons k rest ih =>
    intro s1 s2 h
    unfold firstSeenIncluded
    by_cases hk : includedKey k ∧ k ∉ s1
    · rw [if_pos hk, if_pos ⟨hk.1, fun hs => hk.2 ((h k).mpr hs)⟩]
      rw [ih (k :: s1) (k :: s2) (fun z => by simp [h z])]
    · rw [if_neg hk, if_neg (fun hh => hk ⟨hh.1, fun hs => hh.2 ((h k).mp hs)⟩)]
      exact ih s1 s2 h

theorem firstSeenIncluded_cons (seen : List String) (k : String) (rest : List String) :
    firstSeenIncluded seen (k :: rest) =
      if includedKey k ∧ k ∉ seen then k :: firstSeenIncluded (k :: seen) rest
      else firstSeenIncluded seen rest := rfl

theorem countsFold_char (ks : List String) :
    ∀ (acc : List (String × Nat)),
      (acc.map Prod.fst).Nodup →
      (∀ p ∈ acc, includedKey p.1) →
      ks.foldl (fun counts k => if includedKey k then bumpCount counts k else counts) acc =
        acc.map (fun p => (p.1, p.2 + ks.count p.1)) ++
          (firstSeenIncluded (acc.map Prod.fst) ks).map (fun k => (k, ks.count k)) := by
  induction ks with
  | nil =>
    intro acc _ _
    simp [firstSeenIncluded]
  | cons k rest ih =>
    intro acc hnd hinc
    have hcount : ∀ x : String, x ≠ k → (k :: rest).count x = rest.count x := by
      intro x hx
      simp [List.count_cons, hx]
    have hcountk : (k :: rest).count k = rest.count k + 1 := by
      simp [List.count_cons]
    simp only [List.foldl_cons]
    by_cases hk : includedKey k
    · rw [if_pos hk]
      by_cases hmem : k ∈ acc.map Prod.fst
      · -- the key is already counted: bump it in place
        rw [bumpCount_eq_map acc k hmem hnd]
        have keysEq : ((acc.map fun p => if p.1 = k then (p.1, p.2 + 1) else p).map Prod.fst) =
            acc.map Prod.fst := by
          rw [List.map_map]
          apply List.map_congr_left
          intro p _
          by_cases hp : p.1 = k <;> simp [hp]
        have hinc' : ∀ p ∈ (acc.map fun p => if p.1 = k then (p.1, p.2 + 1) else p),
            includedKey p.1 := by
          intro p hp
          rcases List.mem_map.mp hp with ⟨q, hq, hqe⟩
          by_cases hqk : q.1 = k
          · simp only [hqk, if_pos rfl] at hqe
            rw [← hqe]
            exact hqk ▸ hinc q hq
          · simp only [if_neg hqk] at hqe
            exact hqe ▸ hinc q hq
        rw [ih _ (keysEq ▸ hnd) hinc', keysEq]
        congr 1
        · rw [List.map_map]
          apply List.map_congr_left
          intro p hp
          simp only [Function.comp_apply]
          by_cases hpk : p.1 = k
          · rw [if_pos hpk]
            dsimp only
            rw [hpk, hcountk]
            simp only [Prod.mk.injEq]
            exact ⟨by trivial, by omega⟩
          · rw [if_neg hpk]
            rw [hcount p.1 hpk]
        · have hskip : firstSeenIncluded (acc.map Prod.fst) (k :: rest) =
              firstSeenIncluded (acc.map Prod.fst) rest := by
            rw [firstSeenIncluded_cons, if_neg (fun hh => hh.2 hmem)]
          rw [hskip]
          apply List.map_congr_left
          intro x hx
          have hxk : x ≠ k :=
            fun hh => (mem_firstSeenIncluded rest (acc.map Prod.fst) x hx).2 (hh ▸ hmem)
          rw [hcount x hxk]
      · -- a fresh included key: append it with count 1
        rw [bumpCount_not_mem acc k hmem]
        have keysEq : ((acc ++ [(k, 1)]).map Prod.fst) = acc.map Prod.fst ++ [k] := by
          simp
        have hnd' : (((acc ++ [(k, 1)]).map Prod.fst)).Nodup := by
          rw [keysEq]
          exact List.Nodup.append hnd (List.nodup_singleton k)
            (fun a ha hb => hmem ((List.mem_singleton.mp hb) ▸ ha))
        have hinc' : ∀ p ∈ acc ++ [(k, 1)], includedKey p.1 := by
          intro p hp
          rcases List.mem_append.mp hp with h1 | h1
          · exact hinc p h1
          · rw [List.mem_singleton.mp h1]
            exact hk
        rw [ih _ hnd' hinc', keysEq]
        have hseen : firstSeenIncluded (acc.map Prod.fst ++ [k]) rest =
            firstSeenIncluded (k :: acc.map Prod.fst) rest := by
          apply firstSeenIncluded_congr
          intro z
          simp [or_comm]
        have hfs : firstSeenIncluded (acc.map Prod.fst) (k :: rest) =
            k :: firstSeenIncluded (k :: acc.map Prod.fst) rest := by
          rw [firstSeenIncluded_cons, if_pos ⟨hk, hmem⟩]
        rw [hseen, hfs]
        simp only [List.map_append, List.map_cons, List.map_nil, List.append_assoc,
          List.singleton_append]
        congr 1
        · apply List.map_congr_left
          intro p hp
          have hpk : p.1 ≠ k := fun hh => hmem (hh ▸ List.mem_map_of_mem Prod.fst hp)
          rw [hcount p.1 hpk]
        · congr 1
          · simp only [Prod.mk.injEq, hcountk]
            exact ⟨by trivial, by omega⟩
          · apply List.map_congr_left
            intro x hx
            have hxk : x ≠ k := fun hh =>
              (mem_firstSeenIncluded rest (k :: acc.map Prod.fst) x hx).2
                (hh ▸ List.mem_cons_self k _)
            rw [hcount x hxk]
    · -- an excluded key contributes nothing
      rw [if_neg hk, ih acc hnd hinc]
      have hfs : firstSeenIncluded (acc.map Prod.fst) (k :: rest) =
          firstSeenIncluded (acc.map Prod.fst) rest := by
        rw [firstSeenIncluded_cons, if_neg (fun hh => hk hh.1)]
      rw [hfs]
      congr 1
      · apply List.map_congr_left
        intro p hp
        have hpk : p.1 ≠ k := fun hh => hk (hh ▸ hinc p hp)
        rw [hcount p.1 hpk]
      · apply List.map_congr_left
        intro x hx
        have hxk : x ≠ k := fun hh =>
          hk (hh ▸ (mem_firstSeenIncluded rest (acc.map Prod.fst) x hx).1)
        rw [hcount x hxk]

theorem barCounts_eq_countsOfKeys (rows : List JSObj) (c : String) :
    barCounts rows c = countsOfKeys (rows.map (fun r => jsValToString (objGet r c))) := by
  unfold barCounts countsOfKeys barCountsStep
  rw [List.foldl_map]

theorem countsOfKeys_eq (ks : List String) :
    countsOfKeys ks = (firstSeenIncluded [] ks).map (fun k => (k, ks.count k)) := by
  unfold countsOfKeys
  rw [countsFold_char ks [] (by simp) (by simp)]
  simp

theorem insertPairByIdx_map_key (k : String) (cnt : String → Nat) (l : List String) :
    insertPairByIdx (k, cnt k) (l.map (fun x => (x, cnt x))) =
      (insertKeyByIdx k l).map (fun x => (x, cnt x)) := by
  induction l with
  | nil => rfl
  | cons q rest ih =>
    unfold insertPairByIdx insertKeyByIdx
    by_cases h : idxVal k ≤ idxVal q <;> simp [h, ih]

theorem sortPairsByIdx_map_key (cnt : String → Nat) (l : List String) :
    sortPairsByIdx (l.map (fun x => (x, cnt x))) =
      (sortKeysByIdx l).map (fun x => (x, cnt x)) := by
  induction l with
  | nil => rfl
  | cons q rest ih =>
    unfold sortPairsByIdx sortKeysByIdx at ih ⊢
    simp only [List.map_cons, List.foldr_cons, ih, insertPairByIdx_map_key]

theorem filter_map_pair (p : String → Bool) (cnt : String → Nat) (l : List String) :
    (l.map (fun x => (x, cnt x))).filter (fun q => p q.1) =
      (l.filter p).map (fun x => (x, cnt x)) := by
  induction l with
  | nil => rfl
  | cons q rest ih =>
    by_cases h : p q <;> simp [List.filter_cons, h, ih]

/-- Claim C2 (amended): for every category-count (bar, single-column)
chart spec, the Chart Data Mapper groups rows by the JS string of the
coerced column value, drops the keys `NaN` and `undefined`, and emits one
`name`/`count` record per distinct key with its row count — array-index-
like keys first in ascending numeric order, then the remaining keys in
first-seen order. -/
theorem c2_amended (spec : ChartParameter) (d : CSVData) (c : String)
    (h1 : spec.type = ChartType.bar) (h2 : spec.columns = [c]) :
    prepareChartData spec d = barChartPerSpec d c := by
  unfold prepareChartData
  rw [h1, h2]
  dsimp only
  rw [barCounts_eq_countsOfKeys]
  have hkeys : (d.rows.map (fun row => buildRowObject d.headers row)).map
      (fun r => jsValToString (objGet r c)) =
      d.rows.map (fun row => coercedKey d.headers row c) := by
    rw [List.map_map]
    apply List.map_congr_left
    intro row _
    simp [objGet_buildRowObject, coercedKey]
  rw [hkeys, countsOfKeys_eq]
  unfold jsEntriesOrder
  rw [filter_map_pair (fun k => (arrayIndexOf k).isSome),
    filter_map_pair (fun k => (arrayIndexOf k).isNone),
    sortPairsByIdx_map_key, ← List.map_append, List.map_map]
  unfold barChartPerSpec firstSeenKeys keyCount
  simp only [Function.comp_def]

/-- Witness for C2 at the specification's example: a column with values
[a, a, b, empty] yields [(a, 2), (b, 1)] with the empty cell excluded. -/
theorem c2_amended_witness :
    prepareChartData
      { type := ChartType.bar, title := "t", description := "d",
        xAxisLabel := none, yAxisLabel := none, columns := ["c"] }
      { headers := ["c"], rows := [["a"], ["a"], ["b"], [""]] } =
    [[("name", JSVal.vStr "a"), ("count", JSVal.vNum 2)],
     [("name", JSVal.vStr "b"), ("count", JSVal.vNum 1)]] := by
  rw [c2_amended _ _ "c" rfl rfl]
  decide

/-- Counterexample to claim C2 as stated: distinct values are not always
emitted in first-seen order.  For column values [b, 1] the value `b` is
seen first, but the mapper emits the record for `1` first, because
JavaScript objects enumerate array-index keys before insertion-ordered
string keys. -/
theorem c2_counterexample :
    prepareChartData
      { type := ChartType.bar, title := "t", description := "d",
        xAxisLabel := none, yAxisLabel := none, columns := ["c"] }
      { headers := ["c"], rows := [["b"], ["1"]] } =
      [[("name", JSVal.vStr "1"), ("count", JSVal.vNum 1)],
       [("name", JSVal.vStr "b"), ("count", JSVal.vNum 1)]] ∧
    prepareChartData
      { type := ChartType.bar, title := "t", description := "d",
        xAxisLabel := none, yAxisLabel := none, columns := ["c"] }
      { headers := ["c"], rows := [["b"], ["1"]] } ≠
      [[("name", JSVal.vStr "b"), ("count", JSVal.vNum 1)],
       [("name", JSVal.vStr "1"), ("count", JSVal.vNum 1)]] := by
  constructor
  · decide
  · decide

/-- Claim C6 (amended): the per-cell coercion keeps a cell as its
original string only when it is nonempty after trimming and not a valid
numeric literal; a cell that trims to empty is coerced to NaN, not kept
as a string; a valid numeric literal is converted to the parsed number. -/
theorem c6_amended (s : String) :
    (trimChars s.toList = [] → parseValue (some s) = JSVal.vNaN) ∧
    (trimChars s.toList ≠ [] → jsStringToNumber s = JSNum.nan →
      parseValue (some s) = JSVal.vStr s) ∧
    (∀ q : ℚ, trimChars s.toList ≠ [] → jsStringToNumber s = JSNum.fin q →
      parseValue (some s) = JSVal.vNum q) ∧
    (∀ b : Bool, trimChars s.toList ≠ [] → jsStringToNumber s = JSNum.inf b →
      parseValue (some s) = JSVal.vInf b) := by
  refine ⟨fun h => by simp [parseValue, show trimChars s.data = [] from h],
    fun h hn => by simp [parseValue, show ¬ trimChars s.data = [] from h, hn],
    fun q h hn => by simp [parseValue, show ¬ trimChars s.data = [] from h, hn],
    fun b h hn => by simp [parseValue, show ¬ trimChars s.data = [] from h, hn]⟩

/-- Witness for C6 at concrete cells: a non-numeric nonempty cell stays a
string, a numeric cell becomes a number. -/
theorem c6_amended_witness :
    parseValue (some "abc") = JSVal.vStr "abc" ∧ parseValue (some "4") = JSVal.vNum 4 :=
  ⟨(c6_amended "abc").2.1 (by decide) (by decide),
   (c6_amended "4").2.2.1 4 (by decide) (by decide)⟩

/-- Counterexample to claim C6 as stated: the empty cell is not kept as
its original string; it is coerced to NaN. -/
theorem c6_counterexample :
    parseValue (some "") = JSVal.vNaN ∧ parseValue (some "") ≠ JSVal.vStr "" := by
  exact ⟨by decide, by decide⟩

example : parseCsvText "a, b\n1,2\n\n3,4\n" =
    some { headers := ["a", "b"], rows := [["1", "2"], ["3", "4"]] } := by decide

example : parseCsvText "  \n " = none := by decide

/-- Claim C1 (amended): selecting a file over 20 MB never invokes the
Tabular Parser or the Analysis Client (the action list is empty), but it
does not leave the prior analysis state unchanged: the handler clears
the previous analysis result and the chat transcript before the size
check, then records the size error and clears the selection.  The parsed
table (csvData) and the chat session are left untouched. -/
theorem c1_amended (st : AppState) (file : FileMeta) (h : file.size > maxFileSize) :
    handleFileSelect st file =
      ({ st with selectedFile := none,
                 errorMsg := some "File size exceeds 20MB limit.",
                 analysisResult := none, chatMessages := [] }, []) := by
  unfold handleFileSelect
  rw [if_pos h]

/-- Witness for C1: a concrete oversize selection is rejected with no
parser or analysis action and the cleared state. -/
theorem c1_amended_witness :
    handleFileSelect
      { selectedFile := none, csvData := none, analysisResult := none,
        chatMessages := [], errorMsg := none }
      { name := "big.csv", size := 20 * 1024 * 1024 + 1, content := "a\n1" } =
      ({ selectedFile := none, csvData := none, analysisResult := none,
         chatMessages := [], errorMsg := some "File size exceeds 20MB limit." }, []) :=
  c1_amended _ _ (by decide)

/-- Counterexample to claim C1 as stated: with an analysis result loaded,
selecting an oversize file leaves the analysis result cleared, not
unchanged — the clearing happens before the size check.  (The parser and
the Analysis Client are indeed not invoked: the action list is empty.) -/
theorem c1_counterexample :
    (handleFileSelect
        { selectedFile := none, csvData := some { headers := ["a"], rows := [["1"]] },
          analysisResult := some
            { summary := "s", keyInsights := [], dataQualityIssues := [],
              narrativeHook := "n", chartParameters := [], analysisNotes := none },
          chatMessages := [], errorMsg := none }
        { name := "big.csv", size := 20 * 1024 * 1024 + 1, content := "a\n1" }).2 = [] ∧
    (handleFileSelect
        { selectedFile := none, csvData := some { headers := ["a"], rows := [["1"]] },
          analysisResult := some
            { summary := "s", keyInsights := [], dataQualityIssues := [],
              narrativeHook := "n", chartParameters := [], analysisNotes := none },
          chatMessages := [], errorMsg := none }
        { name := "big.csv", size := 20 * 1024 * 1024 + 1, content := "a\n1" }).1.analysisResult
      = none := by
  exact ⟨by decide, by decide⟩

/-- Claim C3: for every table with N > 100 data rows, the analysis prompt
embeds exactly the header row followed by the first 100 data rows in
order, and the returned result notes list has the truncation note as its
first element; for N at most 100 no truncation note is added and the
parsed result is returned unchanged. -/
theorem c3_truncation (d : CSVData) (parsed : DataAnalysisResult) :
    (d.rows.length > 100 →
      buildPrompt d =
        promptHead ++
          String.intercalate "\n"
            (String.intercalate "," d.headers ::
              (d.rows.take 100).map (fun row => String.intercalate "," row)) ++
          promptTail ∧
      (analyzeCsvData d parsed).1.analysisNotes =
        some (truncationNoteText :: parsed.analysisNotes.getD []) ∧
      (analyzeCsvData d parsed).2 = some truncationNoteText) ∧
    (d.rows.length ≤ 100 →
      (analyzeCsvData d parsed).1 = parsed ∧ (analyzeCsvData d parsed).2 = none) := by
  constructor
  · intro h
    refine ⟨rfl, ?_, ?_⟩ <;>
      simp [analyzeCsvData, truncationNoteFor, maxRowsForPrompt, h]
  · intro h
    have hn : ¬ d.rows.length > maxRowsForPrompt := by
      simp only [maxRowsForPrompt]
      omega
    constructor <;> simp [analyzeCsvData, truncationNoteFor, hn]

/-- Witness for C3 at a 101-row table: the truncation note becomes the
first (and only) note. -/
theorem c3_truncation_witness :
    (analyzeCsvData { headers := ["a"], rows := List.replicate 101 ["1"] }
        { summary := "s", keyInsights := [], dataQualityIssues := [],
          narrativeHook := "n", chartParameters := [], analysisNotes := none }).1.analysisNotes =
      some [truncationNoteText] := by
  have h := (c3_truncation { headers := ["a"], rows := List.replicate 101 ["1"] }
    { summary := "s", keyInsights := [], dataQualityIssues := [],
      narrativeHook := "n", chartParameters := [], analysisNotes := none }).1 (by simp)
  simpa using h.2.1

/-- Claim C4: if the chat send fails, the transcript equals the
transcript exactly as it was before the provisional user message was
appended; the hypothesis states that the freshly generated uuid does not
collide with any existing message id. -/
theorem c4_rollback (prev : List Message) (m : Message)
    (h : ∀ msg ∈ prev, msg.id ≠ m.id) :
    failedSendTranscript prev m = prev := by
  unfold failedSendTranscript rollbackFailedSend appendUserMessage
  rw [List.filter_append]
  have h1 : prev.filter (fun msg => msg.id ≠ m.id) = prev :=
    List.filter_eq_self.mpr (fun msg hm => by simpa using h msg hm)
  have h2 : [m].filter (fun msg => msg.id ≠ m.id) = ([] : List Message) := by simp
  rw [h1, h2, List.append_nil]

/-- Witness for C4 at a concrete transcript: a failed send of message m2
restores the one-message transcript exactly. -/
theorem c4_rollback_witness :
    failedSendTranscript
      [{ id := "m1", sender := Sender.ai, text := "hello", timestamp := "t1",
         audioAvailable := some true, isPlaying := none }]
      { id := "m2", sender := Sender.user, text := "question", timestamp := "t2",
        audioAvailable := none, isPlaying := none } =
      [{ id := "m1", sender := Sender.ai, text := "hello", timestamp := "t1",
         audioAvailable := some true, isPlaying := none }] :=
  c4_rollback _ _ (by decide)

/-- Claim C10: the send-message callback is invoked only when the input
trims to a nonempty text, the text passed to it equals the trimmed
input, and an input that trims to empty is never sent. -/
theorem c10_send (v : String) (d : Bool) :
    (∀ t, chatInputSend v d = some t → jsTrim v ≠ "" ∧ t = jsTrim v) ∧
    (jsTrim v = "" → chatInputSend v d = none) := by
  constructor
  · intro t ht
    unfold chatInputSend at ht
    by_cases h : jsTrim v ≠ "" ∧ ¬ d
    · rw [if_pos h] at ht
      exact ⟨h.1, (Option.some.injEq _ _ ▸ ht).symm⟩
    · rw [if_neg h] at ht
      exact absurd ht (by simp)
  · intro h
    unfold chatInputSend
    rw [if_neg (fun hh => hh.1 h)]

/-- Witness for C10: a padded input is sent trimmed; a whitespace-only
input is never sent. -/
theorem c10_send_witness :
    (jsTrim " hi " ≠ "" ∧ "hi" = jsTrim " hi ") ∧ chatInputSend "  " false = none :=
  ⟨(c10_send " hi " false).1 "hi" (by decide), (c10_send "  " false).2 (by decide)⟩

theorem base64Index_base64Char (n : Nat) (h : n < 64) :
    base64Index (base64Char n) = some n :=
  (by decide : ∀ m, m < 64 → base64Index (base64Char m) = some m) n h

theorem base64Char_default (n : Nat) (h : 64 ≤ n) : base64Char n = '?' := by
  unfold base64Char
  apply List.getD_eq_default
  have hlen : base64Alphabet.length = 64 := by decide
  omega

theorem base64Char_ne_pad (n : Nat) : ¬ base64Char n = '=' := by
  by_cases h : n < 64
  · exact (by decide : ∀ m, m < 64 → ¬ base64Char m = '=') n h
  · rw [base64Char_default n (by omega)]
    decide

theorem base64Char_not_ws (n : Nat) : isAsciiWhitespace (base64Char n) = false := by
  by_cases h : n < 64
  · exact (by decide : ∀ m, m < 64 → isAsciiWhitespace (base64Char m) = false) n h
  · rw [base64Char_default n (by omega)]
    decide

theorem btoaRun_not_ws : ∀ l : List Nat, ∀ c ∈ btoaRun l, isAsciiWhitespace c = false
  | [] => by simp [btoaRun]
  | [a] => by
    intro c hc
    simp only [btoaRun, List.mem_cons, List.not_mem_nil, or_false] at hc
    rcases hc with h | h | h | h <;> subst h <;>
      first | exact base64Char_not_ws _ | decide
  | [a, b] => by
    intro c hc
    simp only [btoaRun, List.mem_cons, List.not_mem_nil, or_false] at hc
    rcases hc with h | h | h | h <;> subst h <;>
      first | exact base64Char_not_ws _ | decide
  | a :: b :: c0 :: rest => by
    intro c hc
    simp only [btoaRun, List.mem_cons] at hc
    rcases hc with h | h | h | h | h
    · exact h ▸ base64Char_not_ws _
    · exact h ▸ base64Char_not_ws _
    · exact h ▸ base64Char_not_ws _
    · exact h ▸ base64Char_not_ws _
    · exact btoaRun_not_ws rest c h

theorem filter_ws_btoaRun (l : List Nat) :
    (btoaRun l).filter (fun c => !isAsciiWhitespace c) = btoaRun l :=
  List.filter_eq_self.mpr (fun c hc => by simp [btoaRun_not_ws l c hc])

theorem btoaRun_length_mod4 : ∀ l : List Nat, (btoaRun l).length % 4 = 0
  | [] => rfl
  | [_] => by simp [btoaRun]
  | [_, _] => by simp [btoaRun]
  | a :: b :: c :: rest => by
    have ih := btoaRun_length_mod4 rest
    simp only [btoaRun, List.length_cons]
    omega

theorem two_le_btoaRun_length : ∀ l : List Nat, l ≠ [] → 2 ≤ (btoaRun l).length
  | [], h => absurd rfl h
  | [_], _ => by simp [btoaRun]
  | [_, _], _ => by simp [btoaRun]
  | _ :: _ :: _ :: rest, _ => by
    simp only [btoaRun, List.length_cons]
    omega

theorem dropEqRev_cons_cons (e1 e2 : Char) (r : List Char) :
    dropEqRev (e1 :: e2 :: r) =
      if e1 = '=' then (if e2 = '=' then r else e2 :: r) else e1 :: e2 :: r := rfl

theorem dropTrailingEq_append (x s : List Char) (h : 2 ≤ s.length) :
    dropTrailingEq (x ++ s) = x ++ dropTrailingEq s := by
  cases hs : s.reverse with
  | nil =>
    have : s.length = 0 := by
      have := congrArg List.length hs
      simpa using this
    omega
  | cons e1 t =>
    cases ht : t with
    | nil =>
      have : s.length = 1 := by
        have := congrArg List.length hs
        rw [ht] at this
        simpa using this
      omega
    | cons e2 r =>
      rw [ht] at hs
      have hrev : (x ++ s).reverse = e1 :: e2 :: (r ++ x.reverse) := by
        rw [List.reverse_append, hs]
        simp
      unfold dropTrailingEq
      rw [hrev, hs, dropEqRev_cons_cons, dropEqRev_cons_cons]
      by_cases h1 : e1 = '='
      · by_cases h2 : e2 = '='
        · simp [h1, h2]
        · simp [h1, h2]
      · simp only [if_neg h1]
        rw [← hrev, ← hs, List.reverse_reverse, List.reverse_reverse]

theorem atobRun_dropTrailingEq_btoaRun :
    ∀ l : List Nat, (∀ x ∈ l, x < 256) → atobRun (dropTrailingEq (btoaRun l)) = some l
  | [], _ => rfl
  | [a], h => by
    have ha : a < 256 := h a (by simp)
    have h1 : base64Index (base64Char (a / 4)) = some (a / 4) :=
      base64Index_base64Char _ (by omega)
    have h2 : base64Index (base64Char (a % 4 * 16)) = some (a % 4 * 16) :=
      base64Index_base64Char _ (by omega)
    show atobRun (dropTrailingEq
      [base64Char (a / 4), base64Char (a % 4 * 16), '=', '=']) = some [a]
    have hd : dropTrailingEq [base64Char (a / 4), base64Char (a % 4 * 16), '=', '='] =
        [base64Char (a / 4), base64Char (a % 4 * 16)] := rfl
    rw [hd]
    simp [atobRun, h1, h2]
    omega
  | [a, b], h => by
    have ha : a < 256 := h a (by simp)
    have hb : b < 256 := h b (by simp)
    have h1 : base64Index (base64Char (a / 4)) = some (a / 4) :=
      base64Index_base64Char _ (by omega)
    have h2 : base64Index (base64Char (a % 4 * 16 + b / 16)) =
        some (a % 4 * 16 + b / 16) := base64Index_base64Char _ (by omega)
    have h3 : base64Index (base64Char (b % 16 * 4)) = some (b % 16 * 4) :=
      base64Index_base64Char _ (by omega)
    show atobRun (dropTrailingEq
      [base64Char (a / 4), base64Char (a % 4 * 16 + b / 16),
       base64Char (b % 16 * 4), '=']) = some [a, b]
    have hd : dropTrailingEq
        [base64Char (a / 4), base64Char (a % 4 * 16 + b / 16),
         base64Char (b % 16 * 4), '='] =
        [base64Char (a / 4), base64Char (a % 4 * 16 + b / 16),
         base64Char (b % 16 * 4)] := by
      simp [dropTrailingEq, dropEqRev, base64Char_ne_pad (b % 16 * 4)]
    rw [hd]
    simp [atobRun, h1, h2, h3]
    constructor
    · omega
    · omega
  | a :: b :: c :: rest, h => by
    have ha : a < 256 := h a (by simp)
    have hb : b < 256 := h b (by simp)
    have hc : c < 256 := h c (by simp)
    have h1 : base64Index (base64Char (a / 4)) = some (a / 4) :=
      base64Index_base64Char _ (by omega)
    have h2 : base64Index (base64Char (a % 4 * 16 + b / 16)) =
        some (a % 4 * 16 + b / 16) := base64Index_base64Char _ (by omega)
    have h3 : base64Index (base64Char (b % 16 * 4 + c / 64)) =
        some (b % 16 * 4 + c / 64) := base64Index_base64Char _ (by omega)
    have h4 : base64Index (base64Char (c % 64)) = some (c % 64) :=
      base64Index_base64Char _ (by omega)
    have ih := atobRun_dropTrailingEq_btoaRun rest (fun x hx => h x (by simp [hx]))
    by_cases hrest : rest = []
    · subst hrest
      show atobRun (dropTrailingEq
        [base64Char (a / 4), base64Char (a % 4 * 16 + b / 16),
         base64Char (b % 16 * 4 + c / 64), base64Char (c % 64)]) = some [a, b, c]
      have hd : dropTrailingEq
          [base64Char (a / 4), base64Char (a % 4 * 16 + b / 16),
           base64Char (b % 16 * 4 + c / 64), base64Char (c % 64)] =
          [base64Char (a / 4), base64Char (a % 4 * 16 + b / 16),
           base64Char (b % 16 * 4 + c / 64), base64Char (c % 64)] := by
        simp [dropTrailingEq, dropEqRev, base64Char_ne_pad (c % 64)]
      rw [hd]
      simp [atobRun, h1, h2, h3, h4]
      refine ⟨by omega, by omega, by omega⟩
    · have hsplit : btoaRun (a :: b :: c :: rest) =
          [base64Char (a / 4), base64Char (a % 4 * 16 + b / 16),
           base64Char (b % 16 * 4 + c / 64), base64Char (c % 64)] ++ btoaRun rest := rfl
      rw [hsplit, dropTrailingEq_append _ _ (two_le_btoaRun_length rest hrest)]
      simp only [List.cons_append, List.nil_append]
      simp [atobRun, h1, h2, h3, h4, ih]
      refine ⟨by omega, by omega, by omega⟩

/-- Claim C9: the base64 helpers round-trip; for every byte list (all
elements below 256), decoding the encoding returns the bytes exactly. -/
theorem c9_roundtrip (b : List Nat) (h : ∀ x ∈ b, x < 256) :
    (encode b).bind decode = some b := by
  have hall : (b.all (fun x => x < 256)) = true :=
    List.all_eq_true.mpr (fun x hx => by simpa using h x hx)
  unfold encode
  rw [if_pos hall]
  show decode (btoaRun b) = some b
  unfold decode
  rw [filter_ws_btoaRun]
  dsimp only
  rw [if_pos (btoaRun_length_mod4 b)]
  exact atobRun_dropTrailingEq_btoaRun b h

/-- Witness for C9 at concrete bytes. -/
theorem c9_roundtrip_witness :
    (encode [0, 255, 77, 10]).bind decode = some [0, 255, 77, 10] :=
  c9_roundtrip _ (by decide)

/-- Claim C5 is violated by the code: with two assistant messages a and
b, after requesting playback of a, letting its speech resolve and start,
and then requesting playback of b, the reached state has BOTH messages
marked playing — message a's flag is only cleared later, by its queued
ended event.  This exhibits a reachable state where more than one
message across the transcript is marked as currently playing. -/
theorem c5_two_playing_reachable :
    PlaybackReachable
      [{ id := "a", sender := Sender.ai, text := "ta", timestamp := "1",
         audioAvailable := some true, isPlaying := none },
       { id := "b", sender := Sender.ai, text := "tb", timestamp := "2",
         audioAvailable := some true, isPlaying := none }]
      (playAudioSync
        (speechSuccess
          (playAudioSync
            (initPlayback
              [{ id := "a", sender := Sender.ai, text := "ta", timestamp := "1",
                 audioAvailable := some true, isPlaying := none },
               { id := "b", sender := Sender.ai, text := "tb", timestamp := "2",
                 audioAvailable := some true, isPlaying := none }]) "a") "a") "b") ∧
    playingCount
      (playAudioSync
        (speechSuccess
          (playAudioSync
            (initPlayback
              [{ id := "a", sender := Sender.ai, text := "ta", timestamp := "1",
                 audioAvailable := some true, isPlaying := none },
               { id := "b", sender := Sender.ai, text := "tb", timestamp := "2",
                 audioAvailable := some true, isPlaying := none }]) "a") "a") "b") = 2 := by
  constructor
  · exact Relation.ReflTransGen.head (PlaybackStep.play _ "a" (by decide))
      (Relation.ReflTransGen.head (PlaybackStep.speechOk _ "a" (by decide))
        (Relation.ReflTransGen.single (PlaybackStep.play _ "b" (by decide))))
  · decide
